import Mathlib

/-
Verification of the cart-to-order checkout engine of the My-local-Mart
backend against its design document.

The JavaScript source is shallowly embedded below:
  * money and rating values (JS numbers on the pricing path) are `Rat`;
  * stock counters are `Int`, because the route handlers update stock with
    raw `$inc` operations that are not clamped and can go below zero;
  * Mongo collections are Lean lists, `findById` / `findOne` is `List.find?`
    on the identifier, `findByIdAndUpdate` is a `List.map` that rewrites the
    matching document;
  * each Express handler becomes a pure function from the database state to
    a (result, new database state) pair.

Sources embedded:
  * `backend/models/Product.js`   (product schema, `inventory` subdocument)
  * `backend/models/Cart.js`      (cart schema and its methods)
  * `backend/models/Order.js`     (order schema, `updateStatus`,
                                   `calculateTotal`, `addRating`, pre-save)
  * `backend/models/Store.js`     (services / rating / stats subdocuments)
  * `backend/routes/orders.js`    (POST /checkout, PATCH /:id/status,
                                   PATCH /:id/cancel, POST /:id/rating)
  * `backend/routes/cart.js`      (GET /, DELETE /remove/:productId)
-/

namespace MyLocalMart

/-! ## Product model (backend/models/Product.js) -/

inductive PStatus
  | active
  | inactive
  | out_of_stock
  | discontinued
deriving DecidableEq, Repr

/-- The `inventory` subdocument of a product. -/
structure Inventory where
  stock : Int
  trackStock : Bool
deriving DecidableEq, Repr

structure Product where
  id : Nat
  store : Nat
  name : String
  sellingPrice : Rat
  unit : String
  image : String
  status : PStatus
  inventory : Inventory
deriving DecidableEq, Repr

/-! ## Cart model (backend/models/Cart.js) -/

/-- One entry of `cartSchema.items`: the product reference, the quantity and
the price captured when the item was added to the cart. -/
structure CartItem where
  product : Nat
  quantity : Nat
  price : Rat
deriving DecidableEq, Repr

structure Cart where
  items : List CartItem
deriving DecidableEq, Repr

/-- `cartSchema.methods.removeItem`: keep every item whose product reference
differs from the given one. -/
def Cart.removeItem (c : Cart) (productId : Nat) : Cart :=
  { c with items := c.items.filter (fun it => it.product != productId) }

/-- `cartSchema.methods.clearCart`. -/
def Cart.clearCart (c : Cart) : Cart :=
  { c with items := [] }

/-! ## Store model (backend/models/Store.js) -/

structure StoreServices where
  deliveryFee : Rat
deriving DecidableEq, Repr

/-- The running rating aggregate kept on a store. -/
structure RatingAgg where
  average : Rat
  count : Nat
deriving DecidableEq, Repr

structure StoreStats where
  totalOrders : Nat
  totalRevenue : Rat
deriving DecidableEq, Repr

structure Store where
  id : Nat
  isActive : Bool
  services : StoreServices
  rating : RatingAgg
  stats : StoreStats
deriving DecidableEq, Repr

/-! ## Order model (backend/models/Order.js) -/

inductive OStatus
  | pending
  | confirmed
  | preparing
  | ready
  | out_for_delivery
  | delivered
  | cancelled
  | refunded
deriving DecidableEq, Repr

structure ProductSnapshot where
  name : String
  price : Rat
  unit : String
  image : String
deriving DecidableEq, Repr

structure OrderItem where
  product : Nat
  productSnapshot : ProductSnapshot
  quantity : Nat
  price : Rat
  total : Rat
deriving DecidableEq, Repr

inductive DeliveryType
  | pickup
  | delivery
deriving DecidableEq, Repr

structure DeliveryInfo where
  dtype : DeliveryType
  fee : Rat
  deliveredAt : Bool
deriving DecidableEq, Repr

structure Pricing where
  subtotal : Rat
  deliveryFee : Rat
  tax : Rat
  discount : Rat
  total : Rat
deriving DecidableEq, Repr

structure TimelineEntry where
  status : OStatus
  note : String
deriving DecidableEq, Repr

structure OrderRating where
  value : Option Nat
  review : String
deriving DecidableEq, Repr

structure Order where
  customer : Nat
  store : Nat
  items : List OrderItem
  status : OStatus
  delivery : DeliveryInfo
  pricing : Pricing
  timeline : List TimelineEntry
  rating : OrderRating
deriving DecidableEq, Repr

/-- `orderSchema.methods.calculateTotal`: recompute `pricing.subtotal` from
the items and `pricing.total` from the pricing components. -/
def Order.calculateTotal (o : Order) : Order :=
  let st := (o.items.map (fun it => it.total)).sum
  { o with pricing := { o.pricing with
      subtotal := st
      total := st + o.pricing.deliveryFee + o.pricing.tax - o.pricing.discount } }

/-- `orderSchema.methods.updateStatus`: set the status, append a timeline
entry, and stamp `delivery.deliveredAt` when the new status is delivered. -/
def Order.updateStatus (o : Order) (newStatus : OStatus) (note : String) : Order :=
  let o1 := { o with
    status := newStatus
    timeline := o.timeline ++ [{ status := newStatus, note := note }] }
  if newStatus = OStatus.delivered then
    { o1 with delivery := { o1.delivery with deliveredAt := true } }
  else o1

/-- `orderSchema.methods.addRating`. -/
def Order.addRating (o : Order) (value : Nat) (review : String) : Order :=
  { o with rating := { value := some value, review := review } }

/-- The pre-save middleware applied when a new order document is saved:
the timeline is seeded with the initial pending entry and
`calculateTotal` runs. -/
def Order.saveNew (o : Order) : Order :=
  Order.calculateTotal
    { o with timeline := [{ status := OStatus.pending, note := "Order placed" }] }

/-- The pre-save middleware applied when an existing order document is
saved again: only `calculateTotal` runs. -/
def Order.saveExisting (o : Order) : Order :=
  Order.calculateTotal o

/-! ## Database state and primitive queries -/

structure DB where
  products : List Product
  stores : List Store
  cart : Cart
  orders : List Order
deriving DecidableEq, Repr

def findProduct (ps : List Product) (pid : Nat) : Option Product :=
  ps.find? (fun p => p.id == pid)

def findStore (ss : List Store) (sid : Nat) : Option Store :=
  ss.find? (fun s => s.id == sid)

/-- `Product.findByIdAndUpdate(pid, \x7b $inc: \x7b 'inventory.stock': -qty \x7d \x7d)`:
a raw decrement, not clamped at zero and applied whether or not the
product tracks stock. -/
def decStock (ps : List Product) (pid : Nat) (qty : Nat) : List Product :=
  ps.map (fun p =>
    if p.id = pid then
      { p with inventory := { p.inventory with stock := p.inventory.stock - (qty : Int) } }
    else p)

/-- `Product.findByIdAndUpdate(pid, \x7b $inc: \x7b 'inventory.stock': qty \x7d \x7d)`:
the stock restoration performed by order cancellation. -/
def incStock (ps : List Product) (pid : Nat) (qty : Nat) : List Product :=
  ps.map (fun p =>
    if p.id = pid then
      { p with inventory := { p.inventory with stock := p.inventory.stock + (qty : Int) } }
    else p)

/-- `Store.findByIdAndUpdate(sid, \x7b $inc: \x7b 'stats.totalOrders': 1,
'stats.totalRevenue': total \x7d \x7d)`. -/
def bumpStoreStats (ss : List Store) (sid : Nat) (revenue : Rat) : List Store :=
  ss.map (fun s =>
    if s.id = sid then
      { s with stats := { s.stats with
          totalOrders := s.stats.totalOrders + 1
          totalRevenue := s.stats.totalRevenue + revenue } }
    else s)

/-- `Store.findByIdAndUpdate(sid, \x7b 'rating.average': avg,
'rating.count': count \x7d)`. -/
def setStoreRating (ss : List Store) (sid : Nat) (avg : Rat) (count : Nat) : List Store :=
  ss.map (fun s =>
    if s.id = sid then { s with rating := { average := avg, count := count } } else s)

/-! ## POST /orders/checkout (backend/routes/orders.js)

The handler first loads the cart with `items.product` populated; a cart
item whose product document no longer exists populates to `null` and makes
the handler crash with a 500 before it mutates anything, which the
embedding reports as `serverError`. -/

/-- `.populate('items.product', ...)`: pair each cart item with its product
document, failing when any product is missing. -/
def populateItems (ps : List Product) : List CartItem → Option (List (CartItem × Product))
  | [] => some []
  | ci :: rest =>
    match findProduct ps ci.product, populateItems ps rest with
    | some p, some prs => some ((ci, p) :: prs)
    | _, _ => none

/-- The store-group iteration order: store identifiers in first-seen order
over the cart items, mirroring insertion order into `storeGroups`. -/
def groupStoreIds (pitems : List (CartItem × Product)) : List Nat :=
  pitems.foldl (fun acc cp => if acc.contains cp.2.store then acc else acc ++ [cp.2.store]) []

/-- The items of one store group. -/
def groupOf (pitems : List (CartItem × Product)) (sid : Nat) : List (CartItem × Product) :=
  pitems.filter (fun cp => cp.2.store == sid)

/-- The order line built from a surviving cart item (`validItems.push` in
the handler): the snapshot and the line use the price captured in the
cart, not the product's current selling price. -/
def mkOrderItem (ci : CartItem) (p : Product) : OrderItem :=
  { product := p.id
    productSnapshot := { name := p.name, price := ci.price, unit := p.unit, image := p.image }
    quantity := ci.quantity
    price := ci.price
    total := ci.price * (ci.quantity : Rat) }

/-- One iteration of the per-line validation loop of the checkout handler:
a line is dropped when the product status is not active, or when stock is
tracked and below the requested quantity; a surviving line is appended to
`validItems` and its line total added to the running subtotal. -/
def validStep (acc : List OrderItem × Rat) (cp : CartItem × Product) : List OrderItem × Rat :=
  if cp.2.status != PStatus.active then acc
  else if cp.2.inventory.trackStock && cp.2.inventory.stock < (cp.1.quantity : Int) then acc
  else (acc.1 ++ [mkOrderItem cp.1 cp.2], acc.2 + cp.1.price * (cp.1.quantity : Rat))

/-- The per-line validation loop of the checkout handler, producing the
surviving `validItems` and the accumulated `subtotal`. -/
def collectValid (group : List (CartItem × Product)) : List OrderItem × Rat :=
  group.foldl validStep ([], 0)

/-- The line-survival condition of checkout step 3b, as a predicate: the
product is active, and it is not the case that stock is tracked with fewer
units than requested. -/
def survives (ci : CartItem) (p : Product) : Bool :=
  p.status == PStatus.active
    && !(p.inventory.trackStock && p.inventory.stock < (ci.quantity : Int))

/-- The delivery fee of a group: zero for pickup, otherwise the store's
configured flat fee. -/
def groupFee (dt : DeliveryType) (store : Store) : Rat :=
  if dt = DeliveryType.pickup then 0 else store.services.deliveryFee

/-- The order document built and saved for one store group. -/
def newOrderOf (dt : DeliveryType) (customer : Nat) (store : Store) (sid : Nat)
    (vs : List OrderItem × Rat) : Order :=
  Order.saveNew
    { customer := customer
      store := sid
      items := vs.1
      status := OStatus.pending
      delivery := { dtype := dt, fee := groupFee dt store, deliveredAt := false }
      pricing := { subtotal := vs.2, deliveryFee := groupFee dt store, tax := 0, discount := 0,
                   total := vs.2 + groupFee dt store }
      timeline := []
      rating := { value := none, review := "" } }

/-- The stock-decrement loop run after an order is saved: one raw `$inc`
per ordered line. -/
def stockDecAll (ps : List Product) (items : List OrderItem) : List Product :=
  items.foldl (fun ps it => decStock ps it.product it.quantity) ps

/-- The stock-restoration loop run by order cancellation: one raw `$inc`
per order line. -/
def stockIncAll (ps : List Product) (items : List OrderItem) : List Product :=
  items.foldl (fun ps it => incStock ps it.product it.quantity) ps

/-- The body of `for (const [storeId, items] of Object.entries(storeGroups))`:
skip the group when the store is missing or inactive or no line survives;
otherwise save the order, decrement the stock of every ordered line and
bump the store statistics. -/
def processGroup (dt : DeliveryType) (customer : Nat) (pitems : List (CartItem × Product))
    (acc : List Order × DB) (sid : Nat) : List Order × DB :=
  match findStore acc.2.stores sid with
  | none => acc
  | some store =>
    if !store.isActive then acc
    else
      let vs := collectValid (groupOf pitems sid)
      if vs.1 = [] then acc
      else
        let order := newOrderOf dt customer store sid vs
        (acc.1 ++ [order],
         { acc.2 with
           products := stockDecAll acc.2.products vs.1
           stores := bumpStoreStats acc.2.stores sid (vs.2 + groupFee dt store)
           orders := acc.2.orders ++ [order] })

inductive CheckoutResult
  | emptyCart
  | serverError
  | noValidItems
  | success (orders : List Order)
deriving DecidableEq, Repr

/-- The tail of the checkout handler after the per-store loop: report
`noValidItems` when no order was created, otherwise clear the cart and
report the created orders. -/
def checkoutFinish (res : List Order × DB) : CheckoutResult × DB :=
  if res.1 = [] then (CheckoutResult.noValidItems, res.2)
  else (CheckoutResult.success res.1, { res.2 with cart := Cart.clearCart res.2.cart })

/-- The POST /orders/checkout handler. -/
def checkout (db : DB) (dt : DeliveryType) (customer : Nat) : CheckoutResult × DB :=
  if db.cart.items = [] then (CheckoutResult.emptyCart, db)
  else
    match populateItems db.products db.cart.items with
    | none => (CheckoutResult.serverError, db)
    | some pitems =>
      checkoutFinish ((groupStoreIds pitems).foldl (processGroup dt customer pitems) ([], db))

/-! ## Order lifecycle routes (backend/routes/orders.js) -/

/-- PATCH /orders/:id/status: record whatever status the store owner
requests and save. -/
def setOrderStatus (db : DB) (i : Nat) (st : OStatus) (note : String) : DB :=
  match db.orders.get? i with
  | none => db
  | some o =>
    { db with orders := db.orders.set i (Order.saveExisting (Order.updateStatus o st note)) }

inductive CancelResult
  | notFound
  | notCancellable
  | ok
deriving DecidableEq, Repr

/-- PATCH /orders/:id/cancel: refuse when the order is delivered, cancelled
or refunded; otherwise set the status to cancelled and restore the stock
of every order line. -/
def cancelOrder (db : DB) (i : Nat) (reason : String) : CancelResult × DB :=
  match db.orders.get? i with
  | none => (CancelResult.notFound, db)
  | some o =>
    if o.status = OStatus.delivered ∨ o.status = OStatus.cancelled ∨ o.status = OStatus.refunded then
      (CancelResult.notCancellable, db)
    else
      let o1 := Order.saveExisting (Order.updateStatus o OStatus.cancelled reason)
      (CancelResult.ok,
       { db with orders := db.orders.set i o1, products := stockIncAll db.products o.items })

inductive RateResult
  | notFound
  | notDelivered
  | alreadyRated
  | ok
deriving DecidableEq, Repr

/-- `Math.round(x * 100) / 100`, the two-decimal rounding applied to the
new store rating average. -/
def round2 (x : Rat) : Rat :=
  ((⌊x * 100 + 1 / 2⌋ : Int) : Rat) / 100

/-- POST /orders/:id/rating: only delivered, not yet rated orders may be
rated; on success the order stores the rating and the store's running
average and count are recomputed (the average rounded to two decimals). -/
def rateOrder (db : DB) (i : Nat) (value : Nat) (review : String) : RateResult × DB :=
  match db.orders.get? i with
  | none => (RateResult.notFound, db)
  | some o =>
    if o.status ≠ OStatus.delivered then (RateResult.notDelivered, db)
    else if o.rating.value.isSome then (RateResult.alreadyRated, db)
    else
      let o1 := Order.saveExisting (Order.addRating o value review)
      let stores1 :=
        match findStore db.stores o.store with
        | none => db.stores
        | some s =>
          let newCount := s.rating.count + 1
          let newAvg := (s.rating.average * (s.rating.count : Rat) + (value : Rat)) / (newCount : Rat)
          setStoreRating db.stores o.store (round2 newAvg) newCount
      (RateResult.ok, { db with orders := db.orders.set i o1, stores := stores1 })

/-! ## GET /cart (backend/routes/cart.js) -/

/-- The availability filter applied to each cart item when the cart is
read: the populated product must exist, be active, and have enough stock
when stock is tracked. -/
def itemAvailable (ps : List Product) (ci : CartItem) : Bool :=
  match findProduct ps ci.product with
  | none => false
  | some p =>
    p.status == PStatus.active
      && ((ci.quantity : Int) ≤ p.inventory.stock || !p.inventory.trackStock)

/-- The GET /cart handler: filter out unavailable items and, when anything
was dropped, persist the pruned cart. -/
def getCart (db : DB) : Cart × DB :=
  let avail := db.cart.items.filter (itemAvailable db.products)
  if avail.length ≠ db.cart.items.length then
    ({ items := avail }, { db with cart := { items := avail } })
  else (db.cart, db)

/-! ## Operation alphabet for lifecycle-invariant claims -/

inductive Op
  | checkoutOp (dt : DeliveryType) (customer : Nat)
  | statusOp (i : Nat) (st : OStatus) (note : String)
  | cancelOp (i : Nat) (reason : String)
  | rateOp (i : Nat) (value : Nat) (review : String)

def applyOp (db : DB) : Op → DB
  | Op.checkoutOp dt c => (checkout db dt c).2
  | Op.statusOp i st note => setOrderStatus db i st note
  | Op.cancelOp i r => (cancelOrder db i r).2
  | Op.rateOp i v rev => (rateOrder db i v rev).2

def runOps (db : DB) (ops : List Op) : DB :=
  ops.foldl applyOp db

/-! ## Helper notions used by the statements -/

/-- Total quantity ordered for one product across the lines of an order. -/
def sumQty (items : List OrderItem) (pid : Nat) : Nat :=
  ((items.filter (fun it => it.product == pid)).map (fun it => it.quantity)).sum

/-- Total quantity ordered for one product across a batch of orders. -/
def ordersQty (os : List Order) (pid : Nat) : Nat :=
  (os.map (fun o => sumQty o.items pid)).sum

def stockMinus (p : Product) (n : Nat) : Product :=
  { p with inventory := { p.inventory with stock := p.inventory.stock - (n : Int) } }

def stockPlus (p : Product) (n : Nat) : Product :=
  { p with inventory := { p.inventory with stock := p.inventory.stock + (n : Int) } }

/-- The statuses the cancel handler refuses to cancel from. -/
def notCancellableStatus (s : OStatus) : Prop :=
  s = OStatus.delivered ∨ s = OStatus.cancelled ∨ s = OStatus.refunded

/-- The documented pricing invariant of an order. -/
def pricingInv (o : Order) : Prop :=
  o.pricing.total
    = o.pricing.subtotal + o.pricing.deliveryFee + o.pricing.tax - o.pricing.discount

instance : DecidablePred pricingInv := fun o => by
  unfold pricingInv; infer_instance

instance (s : OStatus) : Decidable (notCancellableStatus s) := by
  unfold notCancellableStatus; infer_instance

/-! ## Concrete fixtures used by witnesses and counterexamples -/

def exStoreActive : Store :=
  { id := 0, isActive := true, services := { deliveryFee := 5 },
    rating := { average := 4, count := 2 },
    stats := { totalOrders := 0, totalRevenue := 0 } }

def exStoreInactive : Store :=
  { id := 1, isActive := false, services := { deliveryFee := 3 },
    rating := { average := 0, count := 0 },
    stats := { totalOrders := 0, totalRevenue := 0 } }

/-- An active product that does not track stock and has zero stock. -/
def exProdUntracked : Product :=
  { id := 0, store := 0, name := "eggs", sellingPrice := 10, unit := "piece", image := "",
    status := PStatus.active, inventory := { stock := 0, trackStock := false } }

/-- An active tracked product of the active store. -/
def exProdTracked : Product :=
  { id := 2, store := 0, name := "rice", sellingPrice := 3, unit := "kg", image := "",
    status := PStatus.active, inventory := { stock := 7, trackStock := true } }

/-- An active tracked product belonging to the inactive store. -/
def exProdOfInactive : Product :=
  { id := 1, store := 1, name := "milk", sellingPrice := 4, unit := "l", image := "",
    status := PStatus.active, inventory := { stock := 10, trackStock := true } }

/-- State for the stock invariant: every stock is 0 or more, and the cart
orders one unit of the untracked zero-stock product. -/
def exDBUntracked : DB :=
  { products := [exProdUntracked], stores := [exStoreActive],
    cart := { items := [{ product := 0, quantity := 1, price := 10 }] }, orders := [] }

/-- State whose cart holds a single line sold by the inactive store. -/
def exDBInactive : DB :=
  { products := [exProdOfInactive], stores := [exStoreInactive],
    cart := { items := [{ product := 1, quantity := 2, price := 4 }] }, orders := [] }

/-- State whose cart spans the active and the inactive store. -/
def exDBMixed : DB :=
  { products := [exProdTracked, exProdOfInactive], stores := [exStoreActive, exStoreInactive],
    cart := { items := [{ product := 2, quantity := 3, price := 3 },
                        { product := 1, quantity := 1, price := 4 }] },
    orders := [] }

/-- State whose cart holds one tracked line of the active store. -/
def exDBTracked : DB :=
  { products := [exProdTracked], stores := [exStoreActive],
    cart := { items := [{ product := 2, quantity := 3, price := 3 }] }, orders := [] }

/-- A delivered, not yet rated order of the active store. -/
def exOrderDelivered : Order :=
  { customer := 7, store := 0, items := [], status := OStatus.delivered,
    delivery := { dtype := DeliveryType.pickup, fee := 0, deliveredAt := true },
    pricing := { subtotal := 0, deliveryFee := 0, tax := 0, discount := 0, total := 0 },
    timeline := [], rating := { value := none, review := "" } }

/-- State holding the delivered order and the active store with rating
average 4 over 2 ratings. -/
def exDBRating : DB :=
  { products := [], stores := [exStoreActive], cart := { items := [] },
    orders := [exOrderDelivered] }

/-- The populated cart items of `exDBInactive`. -/
def exPitemsInactive : List (CartItem × Product) :=
  [({ product := 1, quantity := 2, price := 4 }, exProdOfInactive)]

/-- The orders produced by checking out `exDBMixed` in delivery mode. -/
def exMixedOrders : List Order :=
  match (checkout exDBMixed DeliveryType.delivery 7).1 with
  | CheckoutResult.success os => os
  | _ => []

/-- The single order produced by checking out `exDBTracked`. -/
def exTrackedOrder : Order :=
  match (checkout exDBTracked DeliveryType.pickup 7).1 with
  | CheckoutResult.success [o] => o
  | _ => exOrderDelivered

/-- The first order produced by checking out `exDBMixed`. -/
def exMixedOrder0 : Order :=
  exMixedOrders.getD 0 exOrderDelivered


/-- A short order lifecycle: mark delivered, rate it, then attempt a
cancel (which must fail on a delivered order). -/
def exLifecycleOps : List Op :=
  [Op.statusOp 0 OStatus.delivered "left at door",
   Op.rateOp 0 5 "great",
   Op.cancelOp 0 "too late"]

/-- The surviving order after running `exLifecycleOps` on `exDBRating`. -/
def exRunOrder : Order :=
  (runOps exDBRating exLifecycleOps).orders.getD 0 exOrderDelivered

/-! ## Specification predicates -/

/-- Two store collections agree on activity flag and configured services
for every identifier (the per-group loop only ever bumps statistics, so
this is invariant during checkout). -/
def sameStoreDirectory (ss ss2 : List Store) : Prop :=
  ∀ sid : Nat,
    (findStore ss2 sid).map (fun s => (s.isActive, s.services))
      = (findStore ss sid).map (fun s => (s.isActive, s.services))

/-- What holds of every order the checkout loop creates: it is pending, its
subtotal is the sum of quantity times captured price over its lines, every
line stems from a populated cart line with the cart's captured price and
quantity, its delivery fee is the group fee of its seller as recorded in
the initial store collection, and its total is subtotal plus fee. -/
def producedOrderProp (dt : DeliveryType) (stores0 : List Store)
    (pitems : List (CartItem × Product)) (o : Order) : Prop :=
  o.status = OStatus.pending ∧
  o.pricing.subtotal = (o.items.map (fun it => it.price * (it.quantity : Rat))).sum ∧
  (∀ it ∈ o.items, ∃ cp, cp ∈ pitems ∧ it.product = cp.2.id ∧ it.price = cp.1.price ∧
      it.quantity = cp.1.quantity ∧ it.total = it.price * (it.quantity : Rat)) ∧
  (∃ s, findStore stores0 o.store = some s ∧ o.pricing.deliveryFee = groupFee dt s) ∧
  o.pricing.total = o.pricing.subtotal + o.pricing.deliveryFee

/-! ## Basic lemmas about the embedded operations -/

theorem stockMinus_zero (p : Product) : stockMinus p 0 = p := by
  cases p with
  | mk id store name sellingPrice unit image status inventory =>
    cases inventory
    simp [stockMinus]

theorem stockMinus_stockMinus (p : Product) (a b : Nat) :
    stockMinus (stockMinus p a) b = stockMinus p (a + b) := by
  cases p with
  | mk id store name sellingPrice unit image status inventory =>
    cases inventory
    simp [stockMinus]
    omega

theorem stockPlus_stockMinus (p : Product) (n : Nat) :
    stockPlus (stockMinus p n) n = p := by
  cases p with
  | mk id store name sellingPrice unit image status inventory =>
    cases inventory
    simp [stockPlus, stockMinus]

theorem stockMinus_id (p : Product) (n : Nat) : (stockMinus p n).id = p.id := rfl

theorem sumQty_cons (it : OrderItem) (rest : List OrderItem) (pid : Nat) :
    sumQty (it :: rest) pid
      = (if it.product = pid then it.quantity else 0) + sumQty rest pid := by
  by_cases h : it.product = pid <;> simp [sumQty, List.filter_cons, h]

theorem decStock_eq_map (ps : List Product) (pid : Nat) (qty : Nat) :
    decStock ps pid qty = ps.map (fun p => if p.id = pid then stockMinus p qty else p) := rfl

theorem incStock_eq_map (ps : List Product) (pid : Nat) (qty : Nat) :
    incStock ps pid qty = ps.map (fun p => if p.id = pid then stockPlus p qty else p) := rfl

theorem stockDecAll_eq (items : List OrderItem) :
    ∀ ps : List Product,
      stockDecAll ps items = ps.map (fun p => stockMinus p (sumQty items p.id)) := by
  induction items with
  | nil =>
    intro ps
    have h : ps.map (fun p => stockMinus p (sumQty [] p.id)) = ps.map (fun p => p) := by
      apply List.map_congr_left
      intro p _
      simp [sumQty, stockMinus_zero]
    simp [stockDecAll, h]
  | cons it rest ih =>
    intro ps
    have h1 : stockDecAll ps (it :: rest) = stockDecAll (decStock ps it.product it.quantity) rest := rfl
    rw [h1, ih, decStock_eq_map, List.map_map]
    apply List.map_congr_left
    intro p _
    by_cases h : p.id = it.product
    · simp only [Function.comp, h, if_pos, stockMinus_id]
      rw [stockMinus_stockMinus, sumQty_cons]
      simp [h, Nat.add_comm]
    · simp only [Function.comp]
      rw [if_neg h, sumQty_cons, if_neg (fun hh : it.product = p.id => h hh.symm), Nat.zero_add]

theorem stockIncAll_eq (items : List OrderItem) :
    ∀ ps : List Product,
      stockIncAll ps items = ps.map (fun p => stockPlus p (sumQty items p.id)) := by
  induction items with
  | nil =>
    intro ps
    have h : ps.map (fun p => stockPlus p (sumQty [] p.id)) = ps.map (fun p => p) := by
      apply List.map_congr_left
      intro p _
      cases p with
      | mk id store name sellingPrice unit image status inventory =>
        cases inventory
        simp [sumQty, stockPlus]
    simp [stockIncAll, h]
  | cons it rest ih =>
    intro ps
    have h1 : stockIncAll ps (it :: rest) = stockIncAll (incStock ps it.product it.quantity) rest := rfl
    rw [h1, ih, incStock_eq_map, List.map_map]
    apply List.map_congr_left
    intro p _
    have hplus : ∀ (q : Product) (a b : Nat), stockPlus (stockPlus q a) b = stockPlus q (a + b) := by
      intro q a b
      cases q with
      | mk id store name sellingPrice unit image status inventory =>
        cases inventory
        simp [stockPlus]
        omega
    by_cases h : p.id = it.product
    · simp only [Function.comp, h, if_pos]
      have : (stockPlus p it.quantity).id = p.id := rfl
      rw [this, hplus, sumQty_cons]
      simp [h, Nat.add_comm]
    · simp only [Function.comp]
      rw [if_neg h, sumQty_cons, if_neg (fun hh : it.product = p.id => h hh.symm), Nat.zero_add]

/-! ## Lemmas about the checkout loop -/

theorem validStep_eq (acc : List OrderItem × Rat) (cp : CartItem × Product) :
    validStep acc cp
      = if survives cp.1 cp.2
        then (acc.1 ++ [mkOrderItem cp.1 cp.2], acc.2 + cp.1.price * (cp.1.quantity : Rat))
        else acc := by
  rcases cp with ⟨ci, p⟩
  unfold validStep survives
  cases hs : p.status == PStatus.active <;>
    cases ht : p.inventory.trackStock && decide (p.inventory.stock < (ci.quantity : Int)) <;>
      simp [bne, hs, ht]

theorem collectValid_foldl (group : List (CartItem × Product)) :
    ∀ acc : List OrderItem × Rat,
      (group.foldl validStep acc).1
        = acc.1 ++ (group.filter (fun cp => survives cp.1 cp.2)).map
            (fun cp => mkOrderItem cp.1 cp.2) := by
  induction group with
  | nil => intro acc; simp
  | cons cp rest ih =>
    intro acc
    rw [List.foldl_cons, ih, validStep_eq, List.filter_cons]
    by_cases h : survives cp.1 cp.2 = true
    · rw [if_pos h, if_pos h]
      simp
    · rw [if_neg h, if_neg (by simpa using h)]

theorem collectValid_fst (group : List (CartItem × Product)) :
    (collectValid group).1
      = (group.filter (fun cp => survives cp.1 cp.2)).map (fun cp => mkOrderItem cp.1 cp.2) := by
  unfold collectValid
  rw [collectValid_foldl]
  simp

theorem collectValid_mem (group : List (CartItem × Product)) (it : OrderItem)
    (h : it ∈ (collectValid group).1) :
    ∃ cp, cp ∈ group ∧ survives cp.1 cp.2 = true ∧ it = mkOrderItem cp.1 cp.2 := by
  rw [collectValid_fst] at h
  rcases List.mem_map.mp h with ⟨cp, hcp, heq⟩
  rcases List.mem_filter.mp hcp with ⟨hmem, hsurv⟩
  exact ⟨cp, hmem, hsurv, heq.symm⟩

/-- Either a group changes nothing, or it appends exactly one order, built
by `newOrderOf` from the surviving lines, and performs the corresponding
stock decrement and store-stats bump. -/
theorem processGroup_cases (dt : DeliveryType) (c : Nat) (pitems : List (CartItem × Product))
    (acc : List Order × DB) (sid : Nat) :
    processGroup dt c pitems acc sid = acc ∨
    ∃ store, findStore acc.2.stores sid = some store ∧ store.isActive = true ∧
      (collectValid (groupOf pitems sid)).1 ≠ [] ∧
      processGroup dt c pitems acc sid
        = (acc.1 ++ [newOrderOf dt c store sid (collectValid (groupOf pitems sid))],
           { acc.2 with
             products := stockDecAll acc.2.products (collectValid (groupOf pitems sid)).1
             stores := bumpStoreStats acc.2.stores sid
               ((collectValid (groupOf pitems sid)).2 + groupFee dt store)
             orders := acc.2.orders
               ++ [newOrderOf dt c store sid (collectValid (groupOf pitems sid))] }) := by
  unfold processGroup
  cases hf : findStore acc.2.stores sid with
  | none => exact Or.inl rfl
  | some store =>
    by_cases ha : store.isActive
    · by_cases hv : (collectValid (groupOf pitems sid)).1 = []
      · left
        simp [ha, hv]
      · right
        exact ⟨store, rfl, ha, hv, by simp [ha, hv]⟩
    · left
      have ha2 : store.isActive = false := by
        cases hb : store.isActive
        · rfl
        · exact absurd hb ha
      simp [ha2]

/-- If the group loop produced no orders it also changed nothing. -/
theorem foldl_processGroup_nil (dt : DeliveryType) (c : Nat)
    (pitems : List (CartItem × Product)) :
    ∀ (sids : List Nat) (acc : List Order × DB),
      (sids.foldl (processGroup dt c pitems) acc).1 = [] →
      sids.foldl (processGroup dt c pitems) acc = acc := by
  intro sids
  induction sids with
  | nil => intro acc _; rfl
  | cons sid rest ih =>
    intro acc h
    rw [List.foldl_cons] at h ⊢
    rcases processGroup_cases dt c pitems acc sid with hc | ⟨store, _, _, _, hc⟩
    · rw [hc] at h ⊢
      exact ih acc h
    · exfalso
      have h2 := ih _ h
      rw [h2, hc] at h
      simp at h

/-! ## Lemmas about populated items, stores and produced orders -/

theorem findProduct_id (ps : List Product) (pid : Nat) (p : Product)
    (h : findProduct ps pid = some p) : p.id = pid := by
  have h2 := List.find?_some h
  simpa using h2

theorem populateItems_mem (ps : List Product) :
    ∀ (items : List CartItem) (pitems : List (CartItem × Product)),
      populateItems ps items = some pitems →
      ∀ cp ∈ pitems, cp.1 ∈ items ∧ findProduct ps cp.1.product = some cp.2 := by
  intro items
  induction items with
  | nil =>
    intro pitems h cp hcp
    simp only [populateItems, Option.some.injEq] at h
    rw [← h] at hcp
    simp at hcp
  | cons ci rest ih =>
    intro pitems h cp hcp
    simp only [populateItems] at h
    cases hf : findProduct ps ci.product with
    | none => rw [hf] at h; simp at h
    | some p =>
      cases hr : populateItems ps rest with
      | none => rw [hf, hr] at h; simp at h
      | some prs =>
        rw [hf, hr] at h
        simp only [Option.some.injEq] at h
        rw [← h] at hcp
        rcases List.mem_cons.mp hcp with hcp2 | hcp2
        · rw [hcp2]
          exact ⟨List.mem_cons_self ci rest, hf⟩
        · rcases ih prs hr cp hcp2 with ⟨h1, h2⟩
          exact ⟨List.mem_cons_of_mem ci h1, h2⟩

theorem findStore_bumpStoreStats (ss : List Store) (sid : Nat) (r : Rat) (sid2 : Nat) :
    (findStore (bumpStoreStats ss sid r) sid2).map (fun s => (s.isActive, s.services))
      = (findStore ss sid2).map (fun s => (s.isActive, s.services)) := by
  unfold findStore bumpStoreStats
  rw [List.find?_map]
  have hpred : ((fun s : Store => s.id == sid2) ∘
      (fun s : Store =>
        if s.id = sid then
          { s with stats := { s.stats with
              totalOrders := s.stats.totalOrders + 1
              totalRevenue := s.stats.totalRevenue + r } }
        else s))
      = (fun s : Store => s.id == sid2) := by
    funext s
    by_cases h : s.id = sid <;> simp [Function.comp, h]
  rw [hpred]
  cases hf : ss.find? (fun s => s.id == sid2) with
  | none => rfl
  | some s =>
    by_cases h : s.id = sid <;> simp [h]

theorem sameStoreDirectory_bump (ss ss2 : List Store) (sid : Nat) (r : Rat)
    (h : sameStoreDirectory ss ss2) :
    sameStoreDirectory ss (bumpStoreStats ss2 sid r) :=
  fun sid2 => (findStore_bumpStoreStats ss2 sid r sid2).trans (h sid2)

theorem sameStoreDirectory_find (ss ss2 : List Store) (sid : Nat) (store : Store)
    (h : sameStoreDirectory ss ss2) (hf : findStore ss2 sid = some store) :
    ∃ s0, findStore ss sid = some s0 ∧ s0.isActive = store.isActive
      ∧ s0.services = store.services := by
  have h2 := h sid
  rw [hf] at h2
  cases hf0 : findStore ss sid with
  | none => rw [hf0] at h2; simp at h2
  | some s0 =>
    rw [hf0] at h2
    simp only [Option.map_some', Option.some.injEq, Prod.mk.injEq] at h2
    exact ⟨s0, rfl, h2.1.symm, h2.2.symm⟩

theorem newOrderOf_proj (dt : DeliveryType) (c : Nat) (store : Store) (sid : Nat)
    (vs : List OrderItem × Rat) :
    (newOrderOf dt c store sid vs).status = OStatus.pending ∧
    (newOrderOf dt c store sid vs).store = sid ∧
    (newOrderOf dt c store sid vs).items = vs.1 ∧
    (newOrderOf dt c store sid vs).pricing.subtotal = (vs.1.map (fun it => it.total)).sum ∧
    (newOrderOf dt c store sid vs).pricing.deliveryFee = groupFee dt store ∧
    (newOrderOf dt c store sid vs).pricing.tax = 0 ∧
    (newOrderOf dt c store sid vs).pricing.discount = 0 ∧
    (newOrderOf dt c store sid vs).pricing.total
      = (vs.1.map (fun it => it.total)).sum + groupFee dt store := by
  unfold newOrderOf Order.saveNew Order.calculateTotal
  refine ⟨rfl, rfl, rfl, rfl, rfl, rfl, rfl, ?_⟩
  simp

/-- The running invariant of the per-store loop, relative to the state the
checkout started from: the cart is untouched, the created orders are
appended to the order collection, stores change only in their statistics,
every product's stock is the initial stock minus the quantities ordered so
far, and every created order satisfies `producedOrderProp`. -/
theorem checkout_loop_invariant (dt : DeliveryType) (c : Nat)
    (pitems : List (CartItem × Product)) (db : DB) :
    ∀ (sids : List Nat) (acc : List Order × DB),
      acc.2.cart = db.cart →
      acc.2.orders = db.orders ++ acc.1 →
      sameStoreDirectory db.stores acc.2.stores →
      acc.2.products = db.products.map (fun p => stockMinus p (ordersQty acc.1 p.id)) →
      (∀ o ∈ acc.1, producedOrderProp dt db.stores pitems o) →
      ((sids.foldl (processGroup dt c pitems) acc).2.cart = db.cart ∧
       (sids.foldl (processGroup dt c pitems) acc).2.orders
         = db.orders ++ (sids.foldl (processGroup dt c pitems) acc).1 ∧
       sameStoreDirectory db.stores (sids.foldl (processGroup dt c pitems) acc).2.stores ∧
       (sids.foldl (processGroup dt c pitems) acc).2.products
         = db.products.map
             (fun p =>
               stockMinus p (ordersQty (sids.foldl (processGroup dt c pitems) acc).1 p.id)) ∧
       (∀ o ∈ (sids.foldl (processGroup dt c pitems) acc).1,
          producedOrderProp dt db.stores pitems o)) := by
  intro sids
  induction sids with
  | nil =>
    intro acc h1 h2 h3 h4 h5
    exact ⟨h1, h2, h3, h4, h5⟩
  | cons sid rest ih =>
    intro acc h1 h2 h3 h4 h5
    simp only [List.foldl_cons]
    rcases processGroup_cases dt c pitems acc sid with hc | ⟨store, hf, ha, hv, hc⟩
    · rw [hc]
      exact ih acc h1 h2 h3 h4 h5
    · rw [hc]
      have hproj := newOrderOf_proj dt c store sid (collectValid (groupOf pitems sid))
      obtain ⟨hst, hsto, hitems, hsubt, hfee, htax, hdisc, htot⟩ := hproj
      apply ih
      · simpa using h1
      · show acc.2.orders ++ [newOrderOf dt c store sid (collectValid (groupOf pitems sid))]
          = db.orders ++ (acc.1 ++ [newOrderOf dt c store sid (collectValid (groupOf pitems sid))])
        rw [h2, List.append_assoc]
      · exact sameStoreDirectory_bump db.stores acc.2.stores sid _ h3
      · show stockDecAll acc.2.products (collectValid (groupOf pitems sid)).1
          = db.products.map
              (fun p =>
                stockMinus p
                  (ordersQty
                    (acc.1 ++ [newOrderOf dt c store sid (collectValid (groupOf pitems sid))])
                    p.id))
        rw [stockDecAll_eq, h4, List.map_map]
        apply List.map_congr_left
        intro p _
        show stockMinus (stockMinus p (ordersQty acc.1 p.id))
            (sumQty (collectValid (groupOf pitems sid)).1
              (stockMinus p (ordersQty acc.1 p.id)).id)
          = stockMinus p
              (ordersQty
                (acc.1 ++ [newOrderOf dt c store sid (collectValid (groupOf pitems sid))]) p.id)
        rw [stockMinus_id, stockMinus_stockMinus]
        have hq : ordersQty
            (acc.1 ++ [newOrderOf dt c store sid (collectValid (groupOf pitems sid))]) p.id
            = ordersQty acc.1 p.id + sumQty (collectValid (groupOf pitems sid)).1 p.id := by
          unfold ordersQty
          rw [List.map_append, List.sum_append]
          simp [hitems]
        rw [hq]
      · intro o2 ho2
        rcases List.mem_append.mp ho2 with hmem | hmem
        · exact h5 o2 hmem
        · have heq2 : o2 = newOrderOf dt c store sid (collectValid (groupOf pitems sid)) := by
            simpa using hmem
          rw [heq2]
          obtain ⟨s0, hs0, hact, hserv⟩ :=
            sameStoreDirectory_find db.stores acc.2.stores sid store h3 hf
          have htotals : ∀ it ∈ (collectValid (groupOf pitems sid)).1,
              it.total = it.price * (it.quantity : Rat) := by
            intro it hit
            rcases collectValid_mem _ it hit with ⟨cp, _, _, hmk⟩
            rw [hmk]
            rfl
          refine ⟨hst, ?_, ?_, ⟨s0, ?_, ?_⟩, ?_⟩
          · rw [hsubt, hitems, List.map_congr_left htotals]
          · intro it hit
            rw [hitems] at hit
            rcases collectValid_mem _ it hit with ⟨cp, hcpg, _, hmk⟩
            have hcpp : cp ∈ pitems := by
              unfold groupOf at hcpg
              exact List.mem_of_mem_filter hcpg
            exact ⟨cp, hcpp, by rw [hmk]; rfl, by rw [hmk]; rfl, by rw [hmk]; rfl,
              by rw [hmk]; rfl⟩
          · rw [hsto]
            exact hs0
          · rw [hfee]
            unfold groupFee
            rw [hserv]
          · rw [htot, hsubt, hfee]

/-! ## C1 -/

/-- C1 (code bug): the claim states that starting from a state where every
product's stockQuantity is 0 or more, any sequence of checkout and cancel
operations keeps every stockQuantity at 0 or more, including products with
stockTracked = false. The checkout handler however decrements
`inventory.stock` with a raw `$inc` for every ordered line, without
re-checking `trackStock`: in `exDBUntracked` every stock starts at 0, the
single cart line (an active untracked product with stock 0) survives
filtering, checkout succeeds, and the product's stock ends at -1. -/
theorem checkout_untracked_stock_goes_negative :
    (∀ p ∈ exDBUntracked.products, 0 ≤ p.inventory.stock) ∧
    (checkout exDBUntracked DeliveryType.pickup 7).2.cart.items = [] ∧
    ((checkout exDBUntracked DeliveryType.pickup 7).2.products.map
        (fun p => p.inventory.stock)) = [-1] := by
  refine ⟨by decide, ?_, ?_⟩ <;> rfl

/-! ## C9 -/

/-- C9: for every cart and every product reference with no line in the
cart, `removeItem` is a no-op — the cart's lines are unchanged (and the
model operation is total, so no error is possible) — and repeating the
removal leaves the result unchanged. -/
theorem removeItem_absent_noop (c : Cart) (pid : Nat)
    (habs : ∀ it ∈ c.items, it.product ≠ pid) :
    Cart.removeItem c pid = c ∧
    Cart.removeItem (Cart.removeItem c pid) pid = Cart.removeItem c pid := by
  have h1 : Cart.removeItem c pid = c := by
    cases c with
    | mk items =>
      simp only [Cart.removeItem]
      congr 1
      apply List.filter_eq_self.mpr
      intro it hit
      exact bne_iff_ne.mpr (habs it hit)
  exact ⟨h1, by rw [h1, h1]⟩

theorem removeItem_absent_noop_witness :
    Cart.removeItem { items := [{ product := 1, quantity := 2, price := 4 }] } 9
      = { items := [{ product := 1, quantity := 2, price := 4 }] } :=
  (removeItem_absent_noop { items := [{ product := 1, quantity := 2, price := 4 }] } 9
    (by decide)).1

/-! ## C10 -/

/-- C10: reading the cart is not state-preserving: the handler filters the
stored lines through the availability check (product present, active, and
tracked stock at least the line quantity) and persists the pruned list, so
both the returned cart and the stored cart hold exactly the available
lines. -/
theorem getCart_prunes_and_persists (db : DB) :
    (getCart db).1.items = db.cart.items.filter (itemAvailable db.products) ∧
    (getCart db).2
      = { db with cart := { items := db.cart.items.filter (itemAvailable db.products) } } := by
  unfold getCart
  by_cases h : (db.cart.items.filter (itemAvailable db.products)).length = db.cart.items.length
  · have heq : db.cart.items.filter (itemAvailable db.products) = db.cart.items :=
      List.filter_eq_self.mpr (List.filter_length_eq_length.mp h)
    rw [if_neg (by simp [h])]
    refine ⟨heq.symm, ?_⟩
    show db = { db with cart := { items := db.cart.items.filter (itemAvailable db.products) } }
    rw [heq]
  · rw [if_pos (by simpa using h)]
    exact ⟨rfl, rfl⟩

/-! ## C2 -/

/-- C2: during checkout, a seller group found inactive is skipped whole —
no order is created and the state is untouched; the lines kept for an
order are exactly those passing `survives` (product active, and not
tracked-with-insufficient-stock), every other line being dropped with no
error recorded anywhere; and a group with no surviving line is also
skipped without creating an order. -/
theorem checkout_group_filtering :
    (∀ (dt : DeliveryType) (c : Nat) (pitems : List (CartItem × Product))
        (acc : List Order × DB) (sid : Nat) (store : Store),
        findStore acc.2.stores sid = some store → store.isActive = false →
        processGroup dt c pitems acc sid = acc) ∧
    (∀ group : List (CartItem × Product),
        (collectValid group).1
          = (group.filter (fun cp => survives cp.1 cp.2)).map
              (fun cp => mkOrderItem cp.1 cp.2)) ∧
    (∀ (dt : DeliveryType) (c : Nat) (pitems : List (CartItem × Product))
        (acc : List Order × DB) (sid : Nat),
        (collectValid (groupOf pitems sid)).1 = [] →
        processGroup dt c pitems acc sid = acc) := by
  refine ⟨?_, collectValid_fst, ?_⟩
  · intro dt c pitems acc sid store hf ha
    unfold processGroup
    rw [hf]
    simp [ha]
  · intro dt c pitems acc sid hv
    unfold processGroup
    cases hf : findStore acc.2.stores sid with
    | none => rfl
    | some store =>
      by_cases ha : store.isActive
      · simp [ha, hv]
      · have ha2 : store.isActive = false := by
          cases hb : store.isActive
          · rfl
          · exact absurd hb ha
        simp [ha2]

theorem checkout_group_filtering_witness :
    processGroup DeliveryType.pickup 7 exPitemsInactive ([], exDBInactive) 1
      = ([], exDBInactive) ∧
    (collectValid exPitemsInactive).1
      = (exPitemsInactive.filter (fun cp => survives cp.1 cp.2)).map
          (fun cp => mkOrderItem cp.1 cp.2) ∧
    processGroup DeliveryType.pickup 7 [] ([], exDBInactive) 1 = ([], exDBInactive) :=
  ⟨checkout_group_filtering.1 DeliveryType.pickup 7 exPitemsInactive ([], exDBInactive) 1
      exStoreInactive (by rfl) (by rfl),
   checkout_group_filtering.2.1 exPitemsInactive,
   checkout_group_filtering.2.2 DeliveryType.pickup 7 [] ([], exDBInactive) 1 (by rfl)⟩

/-! ## C3 -/

/-- C3: for a nonempty cart whose lines all populate, checkout fails with
NoValidItems exactly when the per-seller loop produced no order, and on
that failure the returned state equals the input state — the cart is not
cleared and no product stock (nor anything else) is changed. -/
theorem checkout_noValidItems_spec (db : DB) (dt : DeliveryType) (c : Nat)
    (pitems : List (CartItem × Product))
    (hne : db.cart.items ≠ [])
    (hpop : populateItems db.products db.cart.items = some pitems) :
    ((checkout db dt c).1 = CheckoutResult.noValidItems ↔
      ((groupStoreIds pitems).foldl (processGroup dt c pitems) ([], db)).1 = []) ∧
    ((checkout db dt c).1 = CheckoutResult.noValidItems → (checkout db dt c).2 = db) := by
  have hck : checkout db dt c
      = checkoutFinish ((groupStoreIds pitems).foldl (processGroup dt c pitems) ([], db)) := by
    unfold checkout
    rw [if_neg hne, hpop]
  by_cases hres : ((groupStoreIds pitems).foldl (processGroup dt c pitems) ([], db)).1 = []
  · have hfold := foldl_processGroup_nil dt c pitems (groupStoreIds pitems) ([], db) hres
    rw [hck]
    unfold checkoutFinish
    rw [if_pos hres]
    refine ⟨by simp [hres], ?_⟩
    intro _
    show ((groupStoreIds pitems).foldl (processGroup dt c pitems) ([], db)).2 = db
    rw [hfold]
  · rw [hck]
    unfold checkoutFinish
    rw [if_neg hres]
    constructor
    · constructor
      · intro h
        exact absurd h (by simp)
      · intro h
        exact absurd h hres
    · intro h
      exact absurd h (by simp)

theorem checkout_noValidItems_spec_witness :
    (checkout exDBInactive DeliveryType.pickup 7).1 = CheckoutResult.noValidItems ∧
    (checkout exDBInactive DeliveryType.pickup 7).2 = exDBInactive := by
  have h := checkout_noValidItems_spec exDBInactive DeliveryType.pickup 7 exPitemsInactive
    (by decide) (by rfl)
  exact ⟨h.1.mpr (by rfl), h.2 (h.1.mpr (by rfl))⟩

/-! ## C4 -/

/-- C4: whenever checkout succeeds — at least one order was produced, even
with some seller groups skipped — the customer's cart is cleared of all
its lines in the returned state. -/
theorem checkout_success_clears_cart (db : DB) (dt : DeliveryType) (c : Nat)
    (os : List Order) (h : (checkout db dt c).1 = CheckoutResult.success os) :
    (checkout db dt c).2.cart.items = [] := by
  unfold checkout at h ⊢
  by_cases hne : db.cart.items = []
  · rw [if_pos hne] at h
    exact absurd h (by simp)
  · rw [if_neg hne] at h ⊢
    cases hpop : populateItems db.products db.cart.items with
    | none =>
      simp only [hpop] at h
      exact absurd h (by simp)
    | some pitems =>
      simp only [hpop] at h ⊢
      unfold checkoutFinish at h ⊢
      by_cases hres :
          ((groupStoreIds pitems).foldl (processGroup dt c pitems) ([], db)).1 = []
      · rw [if_pos hres] at h
        exact absurd h (by simp)
      · rw [if_neg hres]
        simp [Cart.clearCart]

/-- The cart of `exDBMixed` spans two sellers of which one is inactive and
produces no order, yet checkout succeeds and clears the cart. -/
theorem checkout_success_clears_cart_witness :
    (checkout exDBMixed DeliveryType.delivery 7).2.cart.items = [] :=
  checkout_success_clears_cart exDBMixed DeliveryType.delivery 7 exMixedOrders (by rfl)

/-! ## C5 -/

/-- C5: every order produced by a successful checkout has a subtotal equal
to the sum over its surviving lines of quantity times the unit price, where
every line carries exactly the price captured in the cart at add-to-cart
time (not the product's live selling price); its delivery fee is 0 for
pickup and the seller's configured flat fee otherwise; and its total is
subtotal plus delivery fee. -/
theorem checkout_order_pricing (db : DB) (dt : DeliveryType) (c : Nat) (os : List Order)
    (h : (checkout db dt c).1 = CheckoutResult.success os) :
    ∀ o ∈ os,
      o.pricing.subtotal = (o.items.map (fun it => it.price * (it.quantity : Rat))).sum ∧
      (∀ it ∈ o.items, ∃ ci, ci ∈ db.cart.items ∧ it.product = ci.product ∧
          it.price = ci.price ∧ it.quantity = ci.quantity) ∧
      (∃ s, findStore db.stores o.store = some s ∧
          o.pricing.deliveryFee
            = (if dt = DeliveryType.pickup then 0 else s.services.deliveryFee)) ∧
      o.pricing.total = o.pricing.subtotal + o.pricing.deliveryFee := by
  unfold checkout at h
  by_cases hne : db.cart.items = []
  · rw [if_pos hne] at h
    exact absurd h (by simp)
  · rw [if_neg hne] at h
    cases hpop : populateItems db.products db.cart.items with
    | none =>
      simp only [hpop] at h
      exact absurd h (by simp)
    | some pitems =>
      simp only [hpop] at h
      unfold checkoutFinish at h
      by_cases hres :
          ((groupStoreIds pitems).foldl (processGroup dt c pitems) ([], db)).1 = []
      · rw [if_pos hres] at h
        exact absurd h (by simp)
      · rw [if_neg hres] at h
        simp only [CheckoutResult.success.injEq] at h
        have hprod0 : db.products
            = db.products.map (fun p => stockMinus p (ordersQty ([] : List Order) p.id)) := by
          have hz : ∀ p ∈ db.products,
              id p = stockMinus p (ordersQty ([] : List Order) p.id) := by
            intro p _
            simp [ordersQty, stockMinus_zero]
          exact (List.map_id db.products).symm.trans (List.map_congr_left hz)
        have hinv := checkout_loop_invariant dt c pitems db (groupStoreIds pitems) ([], db)
          rfl (by simp) (fun _ => rfl) hprod0 (by intro o ho; simp at ho)
        obtain ⟨_, _, _, _, hprops⟩ := hinv
        intro o ho
        rw [← h] at ho
        have hop := hprops o ho
        obtain ⟨_, hsub, hitems, ⟨s, hs, hfee⟩, htot⟩ := hop
        refine ⟨hsub, ?_, ⟨s, hs, by rw [hfee]; rfl⟩, htot⟩
        intro it hit
        rcases hitems it hit with ⟨cp, hcp, hprodid, hprice, hqty, _⟩
        rcases populateItems_mem db.products db.cart.items pitems hpop cp hcp with
          ⟨hmem, hfind⟩
        have hid : cp.2.id = cp.1.product := findProduct_id db.products cp.1.product cp.2 hfind
        exact ⟨cp.1, hmem, by rw [hprodid, hid], hprice, hqty⟩

theorem checkout_order_pricing_witness :
    exMixedOrder0.pricing.subtotal
      = (exMixedOrder0.items.map (fun it => it.price * (it.quantity : Rat))).sum ∧
    exMixedOrder0.pricing.total
      = exMixedOrder0.pricing.subtotal + exMixedOrder0.pricing.deliveryFee := by
  have hsingle : exMixedOrders = [exMixedOrder0] := by rfl
  have hmem : exMixedOrder0 ∈ exMixedOrders := by
    rw [hsingle]
    exact List.mem_singleton_self exMixedOrder0
  have h := checkout_order_pricing exDBMixed DeliveryType.delivery 7 exMixedOrders
    (by rfl) exMixedOrder0 hmem
  exact ⟨h.1, h.2.2.2⟩

/-! ## C6 -/

theorem pricingInv_calculateTotal (o : Order) : pricingInv (Order.calculateTotal o) := rfl

theorem foldl_processGroup_orders_pricingInv (dt : DeliveryType) (c : Nat)
    (pitems : List (CartItem × Product)) :
    ∀ (sids : List Nat) (acc : List Order × DB),
      (∀ o ∈ acc.2.orders, pricingInv o) →
      ∀ o ∈ (sids.foldl (processGroup dt c pitems) acc).2.orders, pricingInv o := by
  intro sids
  induction sids with
  | nil => intro acc h; exact h
  | cons sid rest ih =>
    intro acc h
    rw [List.foldl_cons]
    rcases processGroup_cases dt c pitems acc sid with hc | ⟨store, hf, ha, hv, hc⟩
    · rw [hc]
      exact ih acc h
    · rw [hc]
      apply ih
      intro o ho
      rcases List.mem_append.mp ho with hm | hm
      · exact h o hm
      · have ho2 : o = newOrderOf dt c store sid (collectValid (groupOf pitems sid)) := by
          simpa using hm
        rw [ho2]
        exact pricingInv_calculateTotal _

theorem applyOp_pricingInv (db : DB) (op : Op)
    (h : ∀ o ∈ db.orders, pricingInv o) :
    ∀ o ∈ (applyOp db op).orders, pricingInv o := by
  cases op with
  | checkoutOp dt c =>
    show ∀ o ∈ (checkout db dt c).2.orders, pricingInv o
    unfold checkout
    split
    · exact h
    · split
      · exact h
      · rename_i pitems heq
        unfold checkoutFinish
        split
        · exact foldl_processGroup_orders_pricingInv dt c pitems (groupStoreIds pitems)
            ([], db) h
        · intro o ho
          exact foldl_processGroup_orders_pricingInv dt c pitems (groupStoreIds pitems)
            ([], db) h o (by simpa using ho)
  | statusOp i st note =>
    show ∀ o ∈ (setOrderStatus db i st note).orders, pricingInv o
    unfold setOrderStatus
    split
    · exact h
    · intro o ho
      rcases List.mem_or_eq_of_mem_set (by simpa using ho) with hm | hm
      · exact h o hm
      · rw [hm]
        exact pricingInv_calculateTotal _
  | cancelOp i r =>
    show ∀ o ∈ (cancelOrder db i r).2.orders, pricingInv o
    unfold cancelOrder
    split
    · exact h
    · split
      · exact h
      · intro o ho
        rcases List.mem_or_eq_of_mem_set (by simpa using ho) with hm | hm
        · exact h o hm
        · rw [hm]
          exact pricingInv_calculateTotal _
  | rateOp i v rev =>
    show ∀ o ∈ (rateOrder db i v rev).2.orders, pricingInv o
    unfold rateOrder
    split
    · exact h
    · split
      · exact h
      · split
        · exact h
        · intro o ho
          rcases List.mem_or_eq_of_mem_set (by simpa using ho) with hm | hm
          · exact h o hm
          · rw [hm]
            exact pricingInv_calculateTotal _

/-- C6: the pricing invariant total = subtotal + deliveryFee + tax −
discount holds of every persisted order at every point of its lifecycle:
any sequence of checkout / status-update / cancel / rate operations
preserves it, because every save recomputes the total from its components
through `calculateTotal` and no code path writes the total directly. -/
theorem order_pricing_invariant (db : DB) (ops : List Op)
    (h : ∀ o ∈ db.orders, pricingInv o) :
    ∀ o ∈ (runOps db ops).orders, pricingInv o := by
  induction ops generalizing db with
  | nil => exact h
  | cons op rest ih =>
    show ∀ o ∈ (runOps (applyOp db op) rest).orders, pricingInv o
    exact ih (applyOp db op) (applyOp_pricingInv db op h)

theorem order_pricing_invariant_witness : pricingInv exRunOrder := by
  have hord : (runOps exDBRating exLifecycleOps).orders = [exRunOrder] := by rfl
  have hbase : ∀ o ∈ exDBRating.orders, pricingInv o := by
    intro o ho
    have hsing : exDBRating.orders = [exOrderDelivered] := rfl
    rw [hsing] at ho
    have ho2 : o = exOrderDelivered := by simpa using ho
    rw [ho2]
    show (0 : Rat) = 0 + 0 + 0 - 0
    norm_num
  exact order_pricing_invariant exDBRating exLifecycleOps hbase exRunOrder
    (by rw [hord]; exact List.mem_singleton_self exRunOrder)

/-! ## C7 -/

theorem get?_set_self_of_lt {α : Type} (l : List α) (i : Nat) (a : α) (h : i < l.length) :
    (l.set i a).get? i = some a := by
  simp [List.get?_eq_getElem?, List.getElem?_set_self, h]

theorem get?_concat_len {α : Type} (l : List α) (a : α) :
    (l ++ [a]).get? l.length = some a := by
  simp [List.get?_eq_getElem?, List.getElem?_concat_length]

theorem saveExisting_cancelled_status (o : Order) (r : String) :
    (Order.saveExisting (Order.updateStatus o OStatus.cancelled r)).status
      = OStatus.cancelled := by
  unfold Order.saveExisting Order.calculateTotal Order.updateStatus
  simp

/-- The refusing branch of the cancel handler, as one equation. -/
theorem cancelOrder_notCancellable_eq (db : DB) (i : Nat) (reason : String) (o : Order)
    (hg : db.orders.get? i = some o) (ht : notCancellableStatus o.status) :
    cancelOrder db i reason = (CancelResult.notCancellable, db) := by
  unfold cancelOrder
  rw [hg]
  split
  · rename_i heq2
    simp at heq2
  · rename_i o2 heq2
    injection heq2 with ho
    subst ho
    have ht2 : o.status = OStatus.delivered ∨ o.status = OStatus.cancelled
        ∨ o.status = OStatus.refunded := ht
    rw [if_pos ht2]

/-- The successful branch of the cancel handler, as one equation. -/
theorem cancelOrder_ok_eq (db : DB) (i : Nat) (reason : String) (o : Order)
    (hg : db.orders.get? i = some o) (hnc : ¬ notCancellableStatus o.status) :
    cancelOrder db i reason
      = (CancelResult.ok,
         { db with
           orders := db.orders.set i
             (Order.saveExisting (Order.updateStatus o OStatus.cancelled reason))
           products := stockIncAll db.products o.items }) := by
  unfold cancelOrder
  rw [hg]
  split
  · rename_i heq2
    simp at heq2
  · rename_i o2 heq2
    injection heq2 with ho
    subst ho
    have hnc2 : ¬(o.status = OStatus.delivered ∨ o.status = OStatus.cancelled
        ∨ o.status = OStatus.refunded) := hnc
    rw [if_neg hnc2]

/-- C7: the cancel handler fails with NotCancellable exactly when the order
status is delivered, cancelled or refunded; otherwise it succeeds, sets the
status to cancelled, and adds back each line's quantity to that line's
product stock, exactly once — a second cancel of the same order fails with
NotCancellable and changes nothing; and cancelling the single order of a
successful checkout restores every product's stock to its pre-checkout
value. -/
theorem cancel_order_spec :
    (∀ (db : DB) (i : Nat) (reason : String) (o : Order),
        db.orders.get? i = some o →
        ((cancelOrder db i reason).1 = CancelResult.notCancellable ↔
          notCancellableStatus o.status)) ∧
    (∀ (db : DB) (i : Nat) (reason reason2 : String) (o : Order),
        db.orders.get? i = some o →
        ¬ notCancellableStatus o.status →
        (cancelOrder db i reason).1 = CancelResult.ok ∧
        ((cancelOrder db i reason).2.orders.get? i).map (fun o2 => o2.status)
          = some OStatus.cancelled ∧
        (cancelOrder db i reason).2.products
          = db.products.map (fun p => stockPlus p (sumQty o.items p.id)) ∧
        (cancelOrder (cancelOrder db i reason).2 i reason2).1
          = CancelResult.notCancellable ∧
        (cancelOrder (cancelOrder db i reason).2 i reason2).2
          = (cancelOrder db i reason).2) ∧
    (∀ (db : DB) (dt : DeliveryType) (c : Nat) (reason : String) (o : Order),
        (checkout db dt c).1 = CheckoutResult.success [o] →
        (cancelOrder (checkout db dt c).2 db.orders.length reason).1 = CancelResult.ok ∧
        (cancelOrder (checkout db dt c).2 db.orders.length reason).2.products
          = db.products) := by
  have partA : ∀ (db : DB) (i : Nat) (reason : String) (o : Order),
      db.orders.get? i = some o →
      ((cancelOrder db i reason).1 = CancelResult.notCancellable ↔
        notCancellableStatus o.status) := by
    intro db i reason o hg
    by_cases hterm : notCancellableStatus o.status
    · rw [cancelOrder_notCancellable_eq db i reason o hg hterm]
      simp [hterm]
    · rw [cancelOrder_ok_eq db i reason o hg hterm]
      simp [hterm]
  have partB : ∀ (db : DB) (i : Nat) (reason reason2 : String) (o : Order),
      db.orders.get? i = some o →
      ¬ notCancellableStatus o.status →
      (cancelOrder db i reason).1 = CancelResult.ok ∧
      ((cancelOrder db i reason).2.orders.get? i).map (fun o2 => o2.status)
        = some OStatus.cancelled ∧
      (cancelOrder db i reason).2.products
        = db.products.map (fun p => stockPlus p (sumQty o.items p.id)) ∧
      (cancelOrder (cancelOrder db i reason).2 i reason2).1
        = CancelResult.notCancellable ∧
      (cancelOrder (cancelOrder db i reason).2 i reason2).2
        = (cancelOrder db i reason).2 := by
    intro db i reason reason2 o hg hnc
    obtain ⟨hlt, -⟩ := List.get?_eq_some.mp hg
    have heq := cancelOrder_ok_eq db i reason o hg hnc
    have hg2 : (cancelOrder db i reason).2.orders.get? i
        = some (Order.saveExisting (Order.updateStatus o OStatus.cancelled reason)) := by
      rw [heq]
      exact get?_set_self_of_lt db.orders i _ hlt
    have hst : (Order.saveExisting (Order.updateStatus o OStatus.cancelled reason)).status
        = OStatus.cancelled := saveExisting_cancelled_status o reason
    have hterm2 : notCancellableStatus
        (Order.saveExisting (Order.updateStatus o OStatus.cancelled reason)).status := by
      rw [hst]
      right
      left
      rfl
    have hsecond := cancelOrder_notCancellable_eq (cancelOrder db i reason).2 i reason2
      (Order.saveExisting (Order.updateStatus o OStatus.cancelled reason)) hg2 hterm2
    refine ⟨by rw [heq], ?_, ?_, by rw [hsecond], by rw [hsecond]⟩
    · rw [hg2]
      simp [hst]
    · rw [heq]
      exact stockIncAll_eq o.items db.products
  refine ⟨partA, partB, ?_⟩
  intro db dt c reason o hsucc
  unfold checkout at hsucc
  by_cases hne : db.cart.items = []
  · rw [if_pos hne] at hsucc
    exact absurd hsucc (by simp)
  · rw [if_neg hne] at hsucc
    cases hpop : populateItems db.products db.cart.items with
    | none =>
      simp only [hpop] at hsucc
      exact absurd hsucc (by simp)
    | some pitems =>
      simp only [hpop] at hsucc
      unfold checkoutFinish at hsucc
      by_cases hres :
          ((groupStoreIds pitems).foldl (processGroup dt c pitems) ([], db)).1 = []
      · rw [if_pos hres] at hsucc
        exact absurd hsucc (by simp)
      · rw [if_neg hres] at hsucc
        simp only [CheckoutResult.success.injEq] at hsucc
        have hck0 : checkout db dt c
            = checkoutFinish
                ((groupStoreIds pitems).foldl (processGroup dt c pitems) ([], db)) := by
          unfold checkout
          rw [if_neg hne, hpop]
        have hck : checkout db dt c
            = (CheckoutResult.success
                 ((groupStoreIds pitems).foldl (processGroup dt c pitems) ([], db)).1,
               { ((groupStoreIds pitems).foldl (processGroup dt c pitems) ([], db)).2 with
                 cart := Cart.clearCart
                   ((groupStoreIds pitems).foldl
                     (processGroup dt c pitems) ([], db)).2.cart }) := by
          rw [hck0]
          unfold checkoutFinish
          rw [if_neg hres]
        have hprod0 : db.products
            = db.products.map (fun p => stockMinus p (ordersQty ([] : List Order) p.id)) := by
          have hz : ∀ p ∈ db.products,
              id p = stockMinus p (ordersQty ([] : List Order) p.id) := by
            intro p _
            simp [ordersQty, stockMinus_zero]
          exact (List.map_id db.products).symm.trans (List.map_congr_left hz)
        have hinv := checkout_loop_invariant dt c pitems db (groupStoreIds pitems) ([], db)
          rfl (by simp) (fun _ => rfl) hprod0 (by intro o2 ho2; simp at ho2)
        obtain ⟨-, horders, -, hprods, hprops⟩ := hinv
        rw [hsucc] at horders hprods hprops
        have hpend : o.status = OStatus.pending :=
          (hprops o (List.mem_singleton_self o)).1
        have hnc : ¬ notCancellableStatus o.status := by
          rw [hpend]
          intro hx
          rcases hx with hx | hx | hx <;> cases hx
        have hgo : (checkout db dt c).2.orders.get? db.orders.length = some o := by
          rw [hck]
          show ((groupStoreIds pitems).foldl (processGroup dt c pitems) ([], db)).2.orders.get?
              db.orders.length = some o
          rw [horders]
          exact get?_concat_len db.orders o
        have heq := cancelOrder_ok_eq (checkout db dt c).2 db.orders.length reason o hgo hnc
        constructor
        · rw [heq]
        · rw [heq]
          show stockIncAll (checkout db dt c).2.products o.items = db.products
          have hps : (checkout db dt c).2.products
              = db.products.map (fun p => stockMinus p (sumQty o.items p.id)) := by
            rw [hck]
            show ((groupStoreIds pitems).foldl (processGroup dt c pitems) ([], db)).2.products
              = db.products.map (fun p => stockMinus p (sumQty o.items p.id))
            rw [hprods]
            apply List.map_congr_left
            intro p _
            have hq1 : ordersQty [o] p.id = sumQty o.items p.id := by
              simp [ordersQty]
            rw [hq1]
          rw [hps, stockIncAll_eq, List.map_map]
          have hpt : ∀ p ∈ db.products,
              ((fun p => stockPlus p (sumQty o.items p.id)) ∘
                (fun p => stockMinus p (sumQty o.items p.id))) p = id p := by
            intro p _
            show stockPlus (stockMinus p (sumQty o.items p.id))
                (sumQty o.items (stockMinus p (sumQty o.items p.id)).id) = p
            rw [stockMinus_id]
            exact stockPlus_stockMinus p (sumQty o.items p.id)
          rw [List.map_congr_left hpt, List.map_id]

theorem cancel_order_spec_witness :
    (cancelOrder (checkout exDBTracked DeliveryType.pickup 7).2 0 "changed mind").1
      = CancelResult.ok ∧
    (cancelOrder (checkout exDBTracked DeliveryType.pickup 7).2 0 "changed mind").2.products
      = exDBTracked.products := by
  have h := cancel_order_spec.2.2 exDBTracked DeliveryType.pickup 7 "changed mind"
    exTrackedOrder (by rfl)
  exact h

/-! ## C8 -/

theorem findStore_setStoreRating (ss : List Store) (sid : Nat) (avg : Rat) (cnt : Nat) :
    findStore (setStoreRating ss sid avg cnt) sid
      = (findStore ss sid).map
          (fun s =>
            if s.id = sid then { s with rating := { average := avg, count := cnt } } else s) := by
  unfold findStore setStoreRating
  rw [List.find?_map]
  have hpred : ((fun s : Store => s.id == sid) ∘
      (fun s : Store =>
        if s.id = sid then { s with rating := { average := avg, count := cnt } } else s))
      = (fun s : Store => s.id == sid) := by
    funext s
    by_cases h : s.id = sid <;> simp [Function.comp, h]
  rw [hpred]

theorem rateOrder_notDelivered_eq (db : DB) (i : Nat) (v : Nat) (rev : String) (o : Order)
    (hg : db.orders.get? i = some o) (hnd : o.status ≠ OStatus.delivered) :
    rateOrder db i v rev = (RateResult.notDelivered, db) := by
  unfold rateOrder
  rw [hg]
  split
  · rename_i heq2
    simp at heq2
  · rename_i o2 heq2
    injection heq2 with ho
    subst ho
    rw [if_pos hnd]

theorem rateOrder_alreadyRated_eq (db : DB) (i : Nat) (v : Nat) (rev : String) (o : Order)
    (hg : db.orders.get? i = some o) (hd : o.status = OStatus.delivered)
    (hr : o.rating.value.isSome) :
    rateOrder db i v rev = (RateResult.alreadyRated, db) := by
  unfold rateOrder
  rw [hg]
  split
  · rename_i heq2
    simp at heq2
  · rename_i o2 heq2
    injection heq2 with ho
    subst ho
    rw [if_neg (not_not_intro hd), if_pos hr]

theorem rateOrder_ok_eq (db : DB) (i : Nat) (v : Nat) (rev : String) (o : Order)
    (hg : db.orders.get? i = some o) (hd : o.status = OStatus.delivered)
    (hnr : o.rating.value = none) :
    rateOrder db i v rev
      = (RateResult.ok,
         { db with
           orders := db.orders.set i (Order.saveExisting (Order.addRating o v rev))
           stores :=
             match findStore db.stores o.store with
             | none => db.stores
             | some s =>
               setStoreRating db.stores o.store
                 (round2 ((s.rating.average * (s.rating.count : Rat) + (v : Rat))
                   / ((s.rating.count + 1 : Nat) : Rat)))
                 (s.rating.count + 1) }) := by
  unfold rateOrder
  rw [hg]
  split
  · rename_i heq2
    simp at heq2
  · rename_i o2 heq2
    injection heq2 with ho
    subst ho
    rw [if_neg (not_not_intro hd), if_neg (by simp [hnr])]

/-- C8 (amended): rate fails with NotDeliveredYet when the order is not
delivered and with AlreadyRated when it already carries a rating, leaving
the whole state (and hence the seller's average and count) unchanged in
both failure cases; on success the order stores the rating value and the
seller's aggregate becomes newCount = oldCount + 1 and newAvg equal to
(oldAvg × oldCount + value) / (oldCount + 1) rounded to two decimals
(Math.round(x*100)/100), which is what the handler persists. -/
theorem rate_order_spec :
    ∀ (db : DB) (i : Nat) (v : Nat) (rev : String) (o : Order),
      db.orders.get? i = some o →
      ((o.status ≠ OStatus.delivered →
          (rateOrder db i v rev).1 = RateResult.notDelivered ∧
          (rateOrder db i v rev).2 = db) ∧
       (o.status = OStatus.delivered → o.rating.value.isSome →
          (rateOrder db i v rev).1 = RateResult.alreadyRated ∧
          (rateOrder db i v rev).2 = db) ∧
       (o.status = OStatus.delivered → o.rating.value = none →
          ∀ s, findStore db.stores o.store = some s →
            (rateOrder db i v rev).1 = RateResult.ok ∧
            (findStore (rateOrder db i v rev).2.stores o.store).map
                (fun s2 => (s2.rating.average, s2.rating.count))
              = some (round2 ((s.rating.average * (s.rating.count : Rat) + (v : Rat))
                    / ((s.rating.count : Rat) + 1)),
                  s.rating.count + 1) ∧
            ((rateOrder db i v rev).2.orders.get? i).map (fun o2 => o2.rating.value)
              = some (some v))) := by
  intro db i v rev o hg
  obtain ⟨hlt, -⟩ := List.get?_eq_some.mp hg
  refine ⟨?_, ?_, ?_⟩
  · intro hnd
    rw [rateOrder_notDelivered_eq db i v rev o hg hnd]
    exact ⟨rfl, rfl⟩
  · intro hd hr
    rw [rateOrder_alreadyRated_eq db i v rev o hg hd hr]
    exact ⟨rfl, rfl⟩
  · intro hd hnr s hs
    have heq := rateOrder_ok_eq db i v rev o hg hd hnr
    have hsid : s.id = o.store := by simpa using List.find?_some hs
    have hcast : ((s.rating.count + 1 : Nat) : Rat) = (s.rating.count : Rat) + 1 := by
      push_cast
      ring
    refine ⟨by rw [heq], ?_, ?_⟩
    · rw [heq]
      show (findStore
          (match findStore db.stores o.store with
           | none => db.stores
           | some s =>
             setStoreRating db.stores o.store
               (round2 ((s.rating.average * (s.rating.count : Rat) + (v : Rat))
                 / ((s.rating.count + 1 : Nat) : Rat)))
               (s.rating.count + 1)) o.store).map
          (fun s2 => (s2.rating.average, s2.rating.count))
        = some (round2 ((s.rating.average * (s.rating.count : Rat) + (v : Rat))
              / ((s.rating.count : Rat) + 1)),
            s.rating.count + 1)
      rw [hs, findStore_setStoreRating, hs, hcast]
      simp [hsid]
    · rw [heq]
      show ((db.orders.set i (Order.saveExisting (Order.addRating o v rev))).get? i).map
          (fun o2 => o2.rating.value) = some (some v)
      rw [get?_set_self_of_lt db.orders i _ hlt]
      rfl

theorem rate_order_spec_witness :
    (rateOrder exDBRating 0 5 "").1 = RateResult.ok ∧
    (findStore (rateOrder exDBRating 0 5 "").2.stores 0).map
        (fun s2 => (s2.rating.average, s2.rating.count))
      = some (round2 ((4 * ((2 : Nat) : Rat) + ((5 : Nat) : Rat)) / (((2 : Nat) : Rat) + 1)),
          3) := by
  have h := (rate_order_spec exDBRating 0 5 "" exOrderDelivered (by rfl)).2.2 (by rfl) (by rfl)
    exStoreActive (by rfl)
  exact ⟨h.1, h.2.1⟩

/-- C8 counterexample: the claim as stated says the persisted average is
exactly (oldAvg × oldCount + value) / (oldCount + 1); with oldAvg = 4,
oldCount = 2 and value = 5 the handler persists the two-decimal rounding
433/100 = 4.33, while the claimed exact average 13/3 = 4.333... differs. -/
theorem rate_average_rounding_counterexample :
    ((rateOrder exDBRating 0 5 "").2.stores.map (fun s => s.rating.average)
      = [round2 ((4 * ((2 : Nat) : Rat) + ((5 : Nat) : Rat)) / (((3 : Nat)) : Rat))]) ∧
    round2 ((4 * ((2 : Nat) : Rat) + ((5 : Nat) : Rat)) / (((3 : Nat)) : Rat)) = 433 / 100 ∧
    ((433 : Rat) / 100
      ≠ (4 * ((2 : Nat) : Rat) + ((5 : Nat) : Rat)) / (((3 : Nat)) : Rat)) := by
  refine ⟨by rfl, ?_, ?_⟩
  · unfold round2
    push_cast
    norm_num
  · push_cast
    norm_num

end MyLocalMart
